import Mathlib

/-!
Shallow embedding of the domain status checker
(src/WithUIDomain-chker.py) and proofs about its per-domain check
pipeline.  Network-effecting library calls (requests.get, dns.resolver
.resolve, whois.whois) are abstracted as an environment of functions:
an HTTP GET returns `Option Nat` (a status code, or `none` when the
request raises a RequestException), a DNS NS resolution returns
`Option (List String)` (the rendered target names, or `none` when the
resolver raises), and a WHOIS query returns `Except Unit PyVal`
(`Except.error ()` when the query raises, otherwise the value of the
expiration_date attribute).  All other logic is translated directly
from the source.
-/

namespace DomainChecker

/-- Known parking-related keywords in name servers; the source's
PARKING_KEYWORDS list, in order. -/
def PARKING_KEYWORDS : List String :=
  ["parkingcrew", "sedoparking", "bodis", "afternic", "above", "uniregistry",
   "domaincontrol", "cashparking", "namebright", "namestore"]

/-- The source's HTTP_STATUS_DESCRIPTIONS dict, as an association list. -/
def HTTP_STATUS_DESCRIPTIONS : List (Nat × String) :=
  [(200, "OK"),
   (301, "Moved Permanently"),
   (302, "Found (Redirect)"),
   (403, "Forbidden"),
   (404, "Not Found"),
   (500, "Internal Server Error")]

/-- A Python value as far as get_expiration_date inspects it: a datetime
(kept as its year, month and day), a list, or anything else (including
None, which is how python-whois reports an absent field). -/
inductive PyVal where
  | datetime (y m d : Nat)
  | list (vs : List PyVal)
  | other

/-- True exactly on datetime values; mirrors isinstance(x, datetime). -/
def PyVal.isDatetime : PyVal → Bool
  | .datetime _ _ _ => true
  | _ => false

/-- Decimal rendering of a Nat zero-padded to two digits, as strftime
renders the month and day fields. -/
def pad2 (n : Nat) : String :=
  if n < 10 then "0" ++ toString n else toString n

/-- Decimal rendering of a Nat zero-padded to four digits, as strftime
renders the year field. -/
def pad4 (n : Nat) : String :=
  if n < 10 then "000" ++ toString n
  else if n < 100 then "00" ++ toString n
  else if n < 1000 then "0" ++ toString n
  else toString n

/-- strftime with format "%Y-%m-%d" on a datetime. -/
def strftimeYmd (y m d : Nat) : String :=
  pad4 y ++ "-" ++ pad2 m ++ "-" ++ pad2 d

/-- get_expiration_date, with the whois.whois call abstracted as its
outcome.  isinstance list is tested before isinstance datetime, exactly
as in the source; indexing an empty list raises an IndexError which the
surrounding try converts to "Lookup Failed" like every other exception. -/
def get_expiration_date (w : Except Unit PyVal) : String :=
  match w with
  | .error _ => "Lookup Failed"
  | .ok v =>
    match v with
    | .list [] => "Lookup Failed"
    | .list (x :: _) =>
      match x with
      | .datetime y m d => strftimeYmd y m d
      | _ => "Unknown"
    | .datetime y m d => strftimeYmd y m d
    | .other => "Unknown"

/-- The string built for a received HTTP response: the status code, then
" - ", then the description from HTTP_STATUS_DESCRIPTIONS with default
"Other" (dict.get with fallback). -/
def statusLine (s : Nat) : String :=
  toString s ++ " - " ++ (HTTP_STATUS_DESCRIPTIONS.lookup s).getD "Other"

/-- check_http_status: try http:// then https://; the first request that
returns a response (of any status) produces the status line; if both
raise, "No Response". -/
def check_http_status (get : String → Option Nat) (domain : String) : String :=
  match get ("http://" ++ domain) with
  | some status => statusLine status
  | none =>
    match get ("https://" ++ domain) with
    | some status => statusLine status
    | none => "No Response"

/-- Python str.strip with argument "." : removes every leading and every
trailing dot character. -/
def pyStripDots (s : String) : String :=
  String.mk (((s.data.dropWhile (fun c => c == '.')).reverse.dropWhile
    (fun c => c == '.')).reverse)

/-- Python string comparison a < b on the underlying character
sequences: the first differing code point decides, and a strict prefix
is smaller. -/
def pyStrLtB : List Char → List Char → Bool
  | _, [] => false
  | [], _ :: _ => true
  | a :: as, b :: bs =>
    if a < b then true
    else if b < a then false
    else pyStrLtB as bs

/-- The non-strict comparison induced by pyStrLtB; sorted() orders its
output ascending with respect to this relation. -/
def pyStrLe (a b : String) : Bool :=
  ! pyStrLtB b.data a.data

/-- get_name_servers, with the dns.resolver.resolve call abstracted as
its outcome: none when resolution raises (the except branch returns the
empty list), otherwise the rendered NS target strings, each stripped of
dots at both ends and then sorted ascending as Python sorted() does. -/
def get_name_servers (answers : Option (List String)) : List String :=
  match answers with
  | none => []
  | some targets => (targets.map pyStripDots).mergeSort pyStrLe

/-- Python substring containment, needle in haystack. -/
def strContains (haystack needle : String) : Bool :=
  decide (needle.data <:+: haystack.data)

/-- Python str.lower: lowercase each character. -/
def pyLower (s : String) : String :=
  String.mk (s.data.map Char.toLower)

/-- check_if_parked: some name server, lowercased, contains some parking
keyword. -/
def check_if_parked (ns_records : List String) : Bool :=
  ns_records.any (fun ns =>
    PARKING_KEYWORDS.any (fun keyword => strContains (pyLower ns) keyword))

/-- The abstracted network environment: the outcomes of the three
library calls per URL or domain. -/
structure Env where
  httpGet : String → Option Nat
  resolveNS : String → Option (List String)
  whoisQuery : String → Except Unit PyVal

/-- An environment in which every probe fails. -/
def envNone : Env :=
  ⟨fun _ => none, fun _ => none, fun _ => Except.error ()⟩

/-- The body of the per-domain loop of process_domains: builds the
result dict for one domain, modelled as an association list in insertion
order.  Each branch mirrors the source: a skipped check writes the
literal "Skipped"; the name-server field joins with ", " when the list
is non-empty (Python truthiness) and writes "N/A" otherwise; the parking
field needs both check_park and a non-empty ns_records list for a
Yes/No verdict, is "N/A" when check_park holds but ns_records is empty,
and "Skipped" otherwise. -/
def process_one (e : Env) (domain : String)
    (check_expiry check_ns check_park check_http : Bool) :
    List (String × String) :=
  let httpField := if check_http then check_http_status e.httpGet domain
    else "Skipped"
  let ns_records := if check_ns then get_name_servers (e.resolveNS domain)
    else []
  let nsField :=
    if check_ns then
      if ns_records.isEmpty then "N/A" else String.intercalate ", " ns_records
    else "Skipped"
  let parkField :=
    if check_park && !ns_records.isEmpty then
      if check_if_parked ns_records then "Yes" else "No"
    else if check_park then "N/A"
    else "Skipped"
  let expiryField := if check_expiry then
      get_expiration_date (e.whoisQuery domain)
    else "Skipped"
  [("Domain", domain),
   ("HTTP Status", httpField),
   ("Name Servers", nsField),
   ("Possibly Parked", parkField),
   ("Expiration Date", expiryField)]

/-- process_domains: one record per input domain, in input order. -/
def process_domains (e : Env) (domains : List String)
    (check_expiry check_ns check_park check_http : Bool) :
    List (List (String × String)) :=
  domains.map (fun d => process_one e d check_expiry check_ns check_park check_http)

/-- Modelled from the spec: strip any trailing root-label dot (a single
dot at the very end of the rendered name) and nothing else. -/
def stripTrailingRootDot (s : String) : String :=
  String.mk (if s.data.getLast? = some '.' then s.data.dropLast else s.data)

/-- A target string is well formed when it does not start with a dot and
does not end with two dots, which holds of every name dnspython can
render (labels are non-empty except for the root label at the end). -/
def wellFormedTarget (s : String) : Bool :=
  (s.data.head? != some '.') &&
  !(s.data.reverse.head? == some '.' && s.data.reverse.tail.head? == some '.')

/-- C5: the parking classifier returns true iff at least one hostname,
case-insensitively (i.e. after lowercasing), contains at least one
keyword of the fixed set PARKING_KEYWORDS as a substring; the empty
list yields false; the two concrete example lists of the spec evaluate
to true and false respectively. -/
theorem parked_keyword_characterization :
    (∀ l : List String, check_if_parked l = true ↔
      ∃ ns ∈ l, ∃ k ∈ PARKING_KEYWORDS, k.data <:+: (pyLower ns).data) ∧
    check_if_parked [] = false ∧
    check_if_parked ["ns1.sedoparking.com", "ns2.example.com"] = true ∧
    check_if_parked ["ns1.example.com"] = false := by
  refine ⟨?_, by decide, by decide, by decide⟩
  intro l
  simp [check_if_parked, List.any_eq_true, strContains]

/-- C10: the parking classifier is monotone under list extension: if it
returns true on l, it returns true on l ++ l2 and on l2 ++ l for every
l2. -/
theorem parked_append_monotone (l l2 : List String)
    (h : check_if_parked l = true) :
    check_if_parked (l ++ l2) = true ∧ check_if_parked (l2 ++ l) = true := by
  unfold check_if_parked at h ⊢
  simp [List.any_append, h]

/-- Witness for parked_append_monotone at a concrete matching list. -/
theorem parked_append_monotone_witness :
    check_if_parked ["sedoparking"] = true ∧
    check_if_parked (["sedoparking"] ++ ["x"]) = true ∧
    check_if_parked (["x"] ++ ["sedoparking"]) = true :=
  ⟨by decide, (parked_append_monotone ["sedoparking"] ["x"] (by decide)).1,
    (parked_append_monotone ["sedoparking"] ["x"] (by decide)).2⟩

/-- C7: get_expiration_date returns "Lookup Failed" when the WHOIS query
raises; formats a datetime value (or the first element of a list when
that element is a datetime) as YYYY-MM-DD via strftimeYmd; depends only
on the first element of a list value; and returns "Unknown" when the
inspected value is neither a datetime nor (at top level) a list,
including the absent-field case. -/
theorem expiration_date_cases :
    (∀ u : Unit, get_expiration_date (Except.error u) = "Lookup Failed") ∧
    (∀ y m d, get_expiration_date (Except.ok (PyVal.datetime y m d))
      = strftimeYmd y m d) ∧
    (∀ v vs vs2, get_expiration_date (Except.ok (PyVal.list (v :: vs)))
      = get_expiration_date (Except.ok (PyVal.list (v :: vs2)))) ∧
    (∀ y m d vs,
      get_expiration_date (Except.ok (PyVal.list (PyVal.datetime y m d :: vs)))
        = strftimeYmd y m d) ∧
    (∀ v vs, v.isDatetime = false →
      get_expiration_date (Except.ok (PyVal.list (v :: vs))) = "Unknown") ∧
    (∀ v, v.isDatetime = false → (∀ vs, v ≠ PyVal.list vs) →
      get_expiration_date (Except.ok v) = "Unknown") := by
  refine ⟨fun u => rfl, fun y m d => rfl, ?_, fun y m d _ => rfl, ?_, ?_⟩
  · intro v vs vs2
    cases v <;> rfl
  · intro v vs h
    cases v with
    | datetime y m d => simp [PyVal.isDatetime] at h
    | list ws => rfl
    | other => rfl
  · intro v h hne
    cases v with
    | datetime y m d => simp [PyVal.isDatetime] at h
    | list ws => exact absurd rfl (hne ws)
    | other => rfl

/-- Witness for expiration_date_cases: an absent/not-date-typed field
and a list whose head is not a datetime both map to "Unknown". -/
theorem expiration_date_cases_witness :
    PyVal.other.isDatetime = false ∧
    get_expiration_date (Except.ok PyVal.other) = "Unknown" ∧
    get_expiration_date
      (Except.ok (PyVal.list [PyVal.other, PyVal.datetime 2030 1 1]))
        = "Unknown" :=
  ⟨rfl,
    expiration_date_cases.2.2.2.2.2 PyVal.other rfl
      (fun _ h => PyVal.noConfusion h),
    expiration_date_cases.2.2.2.2.1 PyVal.other [PyVal.datetime 2030 1 1] rfl⟩

/-- A received response never produces the sentinel "No Response": the
status line always contains a dash, the sentinel does not. -/
theorem statusLine_ne_noResponse (s : Nat) : statusLine s ≠ "No Response" := by
  intro h
  have hm : ('-' : Char) ∈ (statusLine s).data := by
    unfold statusLine
    rw [String.data_append, String.data_append]
    exact List.mem_append_left _ (List.mem_append_right _ (by decide))
  rw [h] at hm
  exact absurd hm (by decide)

/-- C2: check_http_status returns "No Response" iff both the http and
the https attempt raise; a response on the http attempt yields its
status line with the https attempt never consulted (the result agrees
with any other environment giving the same http answer); and a raise on
http followed by a response on https yields that status line. -/
theorem http_status_no_response_iff (get : String → Option Nat) (d : String) :
    (check_http_status get d = "No Response" ↔
      get ("http://" ++ d) = none ∧ get ("https://" ++ d) = none) ∧
    (∀ s, get ("http://" ++ d) = some s →
      check_http_status get d = statusLine s) ∧
    (∀ s, get ("http://" ++ d) = none → get ("https://" ++ d) = some s →
      check_http_status get d = statusLine s) ∧
    (∀ get2 : String → Option Nat, ∀ s, get ("http://" ++ d) = some s →
      get2 ("http://" ++ d) = some s →
      check_http_status get d = check_http_status get2 d) := by
  refine ⟨⟨?_, ?_⟩, ?_, ?_, ?_⟩
  · intro h
    unfold check_http_status at h
    cases hh : get ("http://" ++ d) with
    | none =>
      cases hs : get ("https://" ++ d) with
      | none => exact ⟨rfl, rfl⟩
      | some s => rw [hh, hs] at h; exact absurd h (statusLine_ne_noResponse s)
    | some s => rw [hh] at h; exact absurd h (statusLine_ne_noResponse s)
  · rintro ⟨h1, h2⟩
    unfold check_http_status
    rw [h1, h2]
  · intro s h
    unfold check_http_status
    rw [h]
  · intro s h1 h2
    unfold check_http_status
    rw [h1, h2]
  · intro get2 s h1 h2
    unfold check_http_status
    rw [h1, h2]

/-- Witness for http_status_no_response_iff: a 404 on the http attempt
produces the 404 status line. -/
theorem http_status_no_response_iff_witness :
    (fun u => if u = "http://w.com" then some 404 else none)
      ("http://" ++ "w.com") = some 404 ∧
    check_http_status (fun u => if u = "http://w.com" then some 404 else none)
      "w.com" = statusLine 404 :=
  ⟨by decide,
    (http_status_no_response_iff
      (fun u => if u = "http://w.com" then some 404 else none) "w.com").2.1
      404 (by decide)⟩

/-- C3 counterexample: the source's description for status 302 is
"Found (Redirect)", not "Found/Redirect" as the spec's table writes it:
an environment answering 302 on the http attempt produces the string
"302 - Found (Redirect)". -/
theorem http_description_302_counterexample :
    check_http_status (fun u => if u = "http://c.com" then some 302 else none)
      "c.com" = "302 - Found (Redirect)" ∧
    "302 - Found (Redirect)" ≠ "302 - Found/Redirect" := by
  exact ⟨by decide, by decide⟩

/-- C3 (amended): the first attempt that yields a response with status s
produces the string of s, " - ", and the description looked up in
HTTP_STATUS_DESCRIPTIONS with default "Other"; the table maps exactly
200, 301, 302, 403, 404, 500 (with 302 mapped to "Found (Redirect)")
and no other code. -/
theorem http_status_description_amended (get : String → Option Nat)
    (d : String) (s : Nat)
    (h : get ("http://" ++ d) = some s ∨
      (get ("http://" ++ d) = none ∧ get ("https://" ++ d) = some s)) :
    check_http_status get d
      = toString s ++ " - " ++ (HTTP_STATUS_DESCRIPTIONS.lookup s).getD "Other" ∧
    HTTP_STATUS_DESCRIPTIONS.lookup 200 = some "OK" ∧
    HTTP_STATUS_DESCRIPTIONS.lookup 301 = some "Moved Permanently" ∧
    HTTP_STATUS_DESCRIPTIONS.lookup 302 = some "Found (Redirect)" ∧
    HTTP_STATUS_DESCRIPTIONS.lookup 403 = some "Forbidden" ∧
    HTTP_STATUS_DESCRIPTIONS.lookup 404 = some "Not Found" ∧
    HTTP_STATUS_DESCRIPTIONS.lookup 500 = some "Internal Server Error" ∧
    (∀ t : Nat, t ≠ 200 → t ≠ 301 → t ≠ 302 → t ≠ 403 → t ≠ 404 → t ≠ 500 →
      HTTP_STATUS_DESCRIPTIONS.lookup t = none) := by
  refine ⟨?_, by decide, by decide, by decide, by decide, by decide, by decide, ?_⟩
  · rcases h with h | ⟨h1, h2⟩
    · unfold check_http_status
      rw [h]
      rfl
    · unfold check_http_status
      rw [h1, h2]
      rfl
  · intro t h1 h2 h3 h4 h5 h6
    simp [HTTP_STATUS_DESCRIPTIONS, List.lookup, beq_eq_false_iff_ne.mpr h1,
      beq_eq_false_iff_ne.mpr h2, beq_eq_false_iff_ne.mpr h3,
      beq_eq_false_iff_ne.mpr h4, beq_eq_false_iff_ne.mpr h5,
      beq_eq_false_iff_ne.mpr h6]

/-- Witness for http_status_description_amended: an unlisted status code
falls back to the description "Other". -/
theorem http_status_description_amended_witness :
    check_http_status (fun u => if u = "http://a.com" then some 418 else none)
      "a.com" = "418 - Other" :=
  (http_status_description_amended
    (fun u => if u = "http://a.com" then some 418 else none) "a.com" 418
    (Or.inl (by decide))).1.trans (by decide)

/-- C1: every record returned by process_domains has exactly the five
keys Domain, HTTP Status, Name Servers, Possibly Parked, Expiration
Date (in insertion order, none absent), and each disabled check's field
holds the literal sentinel "Skipped". -/
theorem records_have_uniform_schema (e : Env) (domains : List String)
    (ce cn cp ch : Bool) :
    ∀ r ∈ process_domains e domains ce cn cp ch,
      r.map Prod.fst = ["Domain", "HTTP Status", "Name Servers",
        "Possibly Parked", "Expiration Date"] ∧
      (ch = false → r.lookup "HTTP Status" = some "Skipped") ∧
      (cn = false → r.lookup "Name Servers" = some "Skipped") ∧
      (cp = false → r.lookup "Possibly Parked" = some "Skipped") ∧
      (ce = false → r.lookup "Expiration Date" = some "Skipped") := by
  intro r hr
  rw [process_domains, List.mem_map] at hr
  obtain ⟨d, hd, rfl⟩ := hr
  refine ⟨rfl, ?_, ?_, ?_, ?_⟩ <;> intro h <;> subst h <;>
    simp [process_one, List.lookup]

/-- Witness for records_have_uniform_schema: with all four checks
disabled the record keeps its full schema and shows "Skipped"
everywhere except Domain. -/
theorem records_have_uniform_schema_witness :
    process_one envNone "x.com" false false false false ∈
      process_domains envNone ["x.com"] false false false false ∧
    (process_one envNone "x.com" false false false false).map Prod.fst
      = ["Domain", "HTTP Status", "Name Servers", "Possibly Parked",
         "Expiration Date"] ∧
    (process_one envNone "x.com" false false false false).lookup "HTTP Status"
      = some "Skipped" ∧
    (process_one envNone "x.com" false false false false).lookup "Name Servers"
      = some "Skipped" ∧
    (process_one envNone "x.com" false false false false).lookup "Possibly Parked"
      = some "Skipped" ∧
    (process_one envNone "x.com" false false false false).lookup "Expiration Date"
      = some "Skipped" := by
  have hm : process_one envNone "x.com" false false false false ∈
      process_domains envNone ["x.com"] false false false false := by
    simp [process_domains]
  have h := records_have_uniform_schema envNone ["x.com"] false false false false
    _ hm
  exact ⟨hm, h.1, h.2.1 rfl, h.2.2.1 rfl, h.2.2.2.1 rfl, h.2.2.2.2 rfl⟩

/-- C6: the Possibly Parked field is "Yes" exactly when the parking
check is enabled, the name-server list obtained in the same invocation
is non-empty and the classifier matches; "No" exactly when it is
enabled, that list is non-empty and the classifier does not match;
"N/A" exactly when it is enabled but the list is empty (in particular
whenever the name-server check is disabled); and "Skipped" exactly when
the parking check is disabled. -/
theorem parked_field_cases (e : Env) (d : String) (ce cn cp ch : Bool) :
    ((process_one e d ce cn cp ch).lookup "Possibly Parked" = some "Yes" ↔
      cp = true ∧ (if cn then get_name_servers (e.resolveNS d) else []) ≠ [] ∧
      check_if_parked (if cn then get_name_servers (e.resolveNS d) else [])
        = true) ∧
    ((process_one e d ce cn cp ch).lookup "Possibly Parked" = some "No" ↔
      cp = true ∧ (if cn then get_name_servers (e.resolveNS d) else []) ≠ [] ∧
      check_if_parked (if cn then get_name_servers (e.resolveNS d) else [])
        = false) ∧
    ((process_one e d ce cn cp ch).lookup "Possibly Parked" = some "N/A" ↔
      cp = true ∧ (if cn then get_name_servers (e.resolveNS d) else []) = []) ∧
    ((process_one e d ce cn cp ch).lookup "Possibly Parked" = some "Skipped" ↔
      cp = false) := by
  cases cp with
  | false => simp [process_one, List.lookup]
  | true =>
    cases hns : (if cn then get_name_servers (e.resolveNS d) else []).isEmpty with
    | true =>
      have hnil : (if cn then get_name_servers (e.resolveNS d) else []) = [] :=
        List.isEmpty_iff.mp hns
      simp [process_one, List.lookup, hnil]
    | false =>
      have hnil : (if cn then get_name_servers (e.resolveNS d) else []) ≠ [] :=
        List.isEmpty_eq_false.mp hns
      cases hpk : check_if_parked
          (if cn then get_name_servers (e.resolveNS d) else []) with
      | true => simp [process_one, List.lookup, hns, hpk, hnil]
      | false => simp [process_one, List.lookup, hns, hpk, hnil]

/-- C8: process_domains yields exactly one record per input domain, in
input order, and the i-th record's Domain field is the i-th input
string unchanged. -/
theorem process_domains_per_domain (e : Env) (domains : List String)
    (ce cn cp ch : Bool) :
    (process_domains e domains ce cn cp ch).length = domains.length ∧
    ∀ (i : Nat) (d : String), domains[i]? = some d →
      ∃ r : List (String × String),
        (process_domains e domains ce cn cp ch)[i]? = some r ∧
        r.lookup "Domain" = some d := by
  constructor
  · simp [process_domains]
  · intro i d hd
    refine ⟨process_one e d ce cn cp ch, ?_, ?_⟩
    · rw [process_domains, List.getElem?_map, hd]
      rfl
    · simp [process_one, List.lookup]

/-- Witness for process_domains_per_domain at a one-element input. -/
theorem process_domains_per_domain_witness :
    (["a.com"] : List String)[0]? = some "a.com" ∧
    ∃ r : List (String × String),
      (process_domains envNone ["a.com"] false false false false)[0]?
        = some r ∧ r.lookup "Domain" = some "a.com" :=
  ⟨rfl, (process_domains_per_domain envNone ["a.com"] false false false
    false).2 0 "a.com" rfl⟩

/-- C9: with the name-server check enabled, an empty probe result makes
the Name Servers field the sentinel "N/A", and a non-empty result makes
it the hostnames joined with ", ". -/
theorem name_servers_field_sentinels (e : Env) (d : String)
    (ce cp ch : Bool) :
    (get_name_servers (e.resolveNS d) = [] →
      (process_one e d ce true cp ch).lookup "Name Servers" = some "N/A") ∧
    (get_name_servers (e.resolveNS d) ≠ [] →
      (process_one e d ce true cp ch).lookup "Name Servers"
        = some (String.intercalate ", " (get_name_servers (e.resolveNS d)))) := by
  constructor
  · intro h
    simp [process_one, List.lookup, h]
  · intro h
    have hb : (get_name_servers (e.resolveNS d)).isEmpty = false :=
      List.isEmpty_eq_false.mpr h
    simp [process_one, List.lookup, hb]

/-- Witness for name_servers_field_sentinels: a failed resolution gives
an empty list and the "N/A" sentinel. -/
theorem name_servers_field_sentinels_witness :
    get_name_servers (envNone.resolveNS "x.com") = [] ∧
    (process_one envNone "x.com" false true false false).lookup "Name Servers"
      = some "N/A" :=
  ⟨rfl, (name_servers_field_sentinels envNone "x.com" false false false).1 rfl⟩

/-- Data of a constructed string. -/
theorem data_mk (l : List Char) : (String.mk l).data = l := rfl

/-- Unfolding of get_name_servers on a successful resolution. -/
theorem get_name_servers_some (targets : List String) :
    get_name_servers (some targets)
      = (targets.map pyStripDots).mergeSort pyStrLe := rfl

/-- The strict Python string comparison agrees with the lexicographic
order on the character sequences. -/
theorem pyStrLtB_iff_lex : ∀ (l m : List Char),
    pyStrLtB l m = true ↔ List.Lex (· < ·) l m := by
  intro l
  induction l with
  | nil =>
    intro m
    cases m with
    | nil =>
      exact ⟨fun h => by simp [pyStrLtB] at h,
        fun h => absurd h (List.Lex.not_nil_right _ _)⟩
    | cons b bs => exact ⟨fun _ => List.Lex.nil, fun _ => rfl⟩
  | cons a as ih =>
    intro m
    cases m with
    | nil =>
      exact ⟨fun h => by simp [pyStrLtB] at h,
        fun h => absurd h (List.Lex.not_nil_right _ _)⟩
    | cons b bs =>
      show (if a < b then true else if b < a then false else pyStrLtB as bs)
          = true ↔ _
      rcases lt_trichotomy a b with hab | hab | hab
      · rw [if_pos hab]
        exact ⟨fun _ => List.Lex.rel hab, fun _ => rfl⟩
      · subst hab
        rw [if_neg (lt_irrefl a), if_neg (lt_irrefl a)]
        exact (ih bs).trans List.Lex.cons_iff.symm
      · rw [if_neg (lt_asymm hab), if_pos hab]
        constructor
        · intro h
          cases h
        · intro hl
          cases hl with
          | rel h2 => exact absurd h2 (lt_asymm hab)
          | cons h2 => exact absurd hab (lt_irrefl a)

/-- The non-strict Python comparison holds iff the strings are equal or
the first is lexicographically below the second. -/
theorem pyStrLe_iff (a b : String) :
    pyStrLe a b = true ↔ a = b ∨ List.Lex (· < ·) a.data b.data := by
  unfold pyStrLe
  rw [Bool.not_eq_true']
  constructor
  · intro h
    rcases trichotomous_of (List.Lex (fun c d : Char => c < d)) a.data b.data
      with h1 | h1 | h1
    · exact Or.inr h1
    · exact Or.inl (String.ext h1)
    · rw [(pyStrLtB_iff_lex _ _).mpr h1] at h
      cases h
  · rintro (rfl | h1)
    · cases hx : pyStrLtB a.data a.data with
      | false => rfl
      | true =>
        exact absurd ((pyStrLtB_iff_lex _ _).mp hx) (fun hL => (asymm hL) hL)
    · cases hx : pyStrLtB b.data a.data with
      | false => rfl
      | true => exact absurd ((pyStrLtB_iff_lex _ _).mp hx) (asymm h1)

/-- Totality of the non-strict Python comparison. -/
theorem pyStrLe_total (a b : String) : pyStrLe a b || pyStrLe b a := by
  unfold pyStrLe
  cases hba : pyStrLtB b.data a.data with
  | false => simp
  | true =>
    cases hab : pyStrLtB a.data b.data with
    | false => simp
    | true =>
      exact absurd ((pyStrLtB_iff_lex _ _).mp hba)
        (asymm ((pyStrLtB_iff_lex _ _).mp hab))

/-- Transitivity of the non-strict Python comparison. -/
theorem pyStrLe_trans (a b c : String) (hab : pyStrLe a b)
    (hbc : pyStrLe b c) : pyStrLe a c := by
  unfold pyStrLe at hab hbc ⊢
  rw [Bool.not_eq_true'] at hab hbc ⊢
  cases hca : pyStrLtB c.data a.data with
  | false => rfl
  | true =>
    exfalso
    have h1 : List.Lex (· < ·) c.data a.data := (pyStrLtB_iff_lex _ _).mp hca
    have h2 : ¬ List.Lex (· < ·) b.data a.data := fun h => by
      rw [(pyStrLtB_iff_lex _ _).mpr h] at hab
      cases hab
    have h3 : ¬ List.Lex (· < ·) c.data b.data := fun h => by
      rw [(pyStrLtB_iff_lex _ _).mpr h] at hbc
      cases hbc
    rcases trichotomous_of (List.Lex (fun c d : Char => c < d)) b.data a.data
      with h4 | h4 | h4
    · exact h2 h4
    · rw [h4] at h3
      exact h3 h1
    · exact h3 (IsTrans.trans _ _ _ h1 h4)

/-- Dropping leading dots does nothing when the head is not a dot. -/
theorem dropWhile_dot_of_head_ne (l : List Char) (h : l.head? ≠ some '.') :
    l.dropWhile (fun c => c == '.') = l := by
  cases l with
  | nil => rfl
  | cons c t =>
    have hc : (c == '.') = false := by
      simp only [List.head?_cons, ne_eq, Option.some.injEq] at h
      simpa using h
    simp [List.dropWhile_cons, hc]

/-- The head left after dropping leading dots is never a dot. -/
theorem head?_dropWhile_dot_ne (m : List Char) :
    (m.dropWhile (fun c => c == '.')).head? ≠ some '.' := by
  induction m with
  | nil => simp
  | cons c t ih =>
    rw [List.dropWhile_cons]
    by_cases hc : (c == '.') = true
    · rw [if_pos hc]
      exact ih
    · rw [if_neg hc]
      simp only [List.head?_cons, ne_eq, Option.some.injEq]
      intro hEq
      exact hc (by simp [hEq])

/-- For a character list with no leading dot and no doubled trailing
dot, Python strip of dots coincides with removing one trailing dot. -/
theorem stripAux (l : List Char) (h1 : l.head? ≠ some '.')
    (h2 : ¬(l.reverse.head? = some '.' ∧ l.reverse.tail.head? = some '.')) :
    ((l.dropWhile (fun c => c == '.')).reverse.dropWhile
        (fun c => c == '.')).reverse
      = if l.getLast? = some '.' then l.dropLast else l := by
  rw [dropWhile_dot_of_head_ne l h1]
  cases hrev : l.reverse with
  | nil =>
    have hl : l = [] := List.reverse_eq_nil_iff.mp hrev
    subst hl
    simp
  | cons c r =>
    have hl : l = r.reverse ++ [c] := by
      have h3 := congrArg List.reverse hrev
      rw [List.reverse_reverse] at h3
      rw [h3, List.reverse_cons]
    have hlast : l.getLast? = some c := by
      rw [hl]
      exact List.getLast?_concat _
    by_cases hc : c = '.'
    · subst hc
      rw [hlast, if_pos rfl]
      cases r with
      | nil => simp [hl]
      | cons d r2 =>
        have hd : d ≠ '.' := by
          intro hdeq
          apply h2
          rw [hrev]
          subst hdeq
          exact ⟨rfl, rfl⟩
        have hdd : (d == '.') = false := beq_eq_false_iff_ne.mpr hd
        rw [List.dropWhile_cons_of_pos (by simp),
          List.dropWhile_cons_of_neg (by simp [hdd]), hl,
          List.dropLast_concat]
    · have hcb : (c == '.') = false := beq_eq_false_iff_ne.mpr hc
      rw [hlast, if_neg (by simp [hc]),
        List.dropWhile_cons_of_neg (by simp [hcb]), ← hrev,
        List.reverse_reverse]

/-- On well-formed rendered targets, Python strip('.') is exactly the
removal of the trailing root-label dot. -/
theorem pyStripDots_eq_stripTrailingRootDot (s : String)
    (h : wellFormedTarget s = true) :
    pyStripDots s = stripTrailingRootDot s := by
  unfold wellFormedTarget at h
  rw [Bool.and_eq_true] at h
  obtain ⟨h1, h2⟩ := h
  have h1b : s.data.head? ≠ some '.' := by simpa using h1
  have h2b : ¬(s.data.reverse.head? = some '.' ∧
      s.data.reverse.tail.head? = some '.') := by
    intro hand
    rw [hand.1, hand.2] at h2
    simp at h2
  unfold pyStripDots stripTrailingRootDot
  exact congrArg String.mk (stripAux s.data h1b h2b)

/-- The result of Python strip('.') never ends in a dot. -/
theorem pyStripDots_getLast?_ne (s : String) :
    (pyStripDots s).data.getLast? ≠ some '.' := by
  unfold pyStripDots
  rw [data_mk, List.getLast?_reverse]
  exact head?_dropWhile_dot_ne _

/-- C4: get_name_servers returns the empty list on resolution failure;
on success over well-formed rendered targets it returns exactly the
targets with the trailing root-label dot stripped, sorted ascending in
the case-sensitive lexicographic (code-point) order on characters, and
no element of the result ends in a dot. -/
theorem name_servers_sorted_stripped (ts : List String)
    (hwf : ∀ t ∈ ts, wellFormedTarget t = true) :
    get_name_servers none = [] ∧
    get_name_servers (some ts)
        = (ts.map stripTrailingRootDot).mergeSort pyStrLe ∧
    List.Pairwise
      (fun a b : String => a = b ∨ List.Lex (fun c d : Char => c < d) a.data b.data)
      (get_name_servers (some ts)) ∧
    ∀ s ∈ get_name_servers (some ts), s.data.getLast? ≠ some '.' := by
  refine ⟨rfl, ?_, ?_, ?_⟩
  · rw [get_name_servers_some]
    congr 1
    exact List.map_congr_left
      (fun t ht => pyStripDots_eq_stripTrailingRootDot t (hwf t ht))
  · rw [get_name_servers_some]
    have hp := List.sorted_mergeSort pyStrLe_trans pyStrLe_total
      (ts.map pyStripDots)
    exact hp.imp (fun hab => (pyStrLe_iff _ _).mp hab)
  · intro s hs
    rw [get_name_servers_some, List.mem_mergeSort] at hs
    obtain ⟨t, ht, rfl⟩ := List.mem_map.mp hs
    exact pyStripDots_getLast?_ne t

/-- Witness for name_servers_sorted_stripped: two absolute rendered
names come back stripped of their root dot and sorted. -/
theorem name_servers_sorted_stripped_witness :
    (∀ t ∈ (["ns2.example.com.", "ns1.example.com."] : List String),
      wellFormedTarget t = true) ∧
    get_name_servers (some ["ns2.example.com.", "ns1.example.com."])
      = ["ns1.example.com", "ns2.example.com"] := by
  refine ⟨by decide, ?_⟩
  rw [(name_servers_sorted_stripped ["ns2.example.com.", "ns1.example.com."]
    (by decide)).2.1]
  simp [stripTrailingRootDot, List.mergeSort, List.merge]
  decide

end DomainChecker
